import Mathlib

/-!
Shallow embedding of the ETL pipeline in `populate_db.py` of the
`streamlit_app` repository.

The pipeline stages four tab-separated extracts into a PostgreSQL database,
builds dimension (lookup) tables, entity tables and fact tables.  Machine
state is modelled as explicit lists of rows; SQL statements become Lean
functions on that state; statements that can raise database errors return
`Except DbError`.  SERIAL surrogate keys are modelled as consecutive
integers assigned in insertion order (every run starts from freshly
recreated, empty tables, so sequences start at 1).
-/

namespace PopulateDb

/-- Database / loader errors surfaced by the pipeline (psycopg2 exceptions
and the Python exceptions raised by `load_tsv_to_stage`). -/
inductive DbError where
  | missingFile
  | schemaMismatch
  | typeCoercion
  | referentialIntegrity
  | notNull
deriving DecidableEq, Repr

/-- Decidable equality of fallible results, so that pipeline outcomes can be
evaluated on concrete inputs. -/
instance {ε α : Type} [DecidableEq ε] [DecidableEq α] :
    DecidableEq (Except ε α) := fun a b =>
  match a, b with
  | .error e, .error e' =>
      if h : e = e' then .isTrue (by rw [h]) else .isFalse (by simp [h])
  | .error _, .ok _ => .isFalse (by simp)
  | .ok _, .error _ => .isFalse (by simp)
  | .ok x, .ok y =>
      if h : x = y then .isTrue (by rw [h]) else .isFalse (by simp [h])

/-! ### Text-to-number coercions (PostgreSQL `::INTEGER` and `::REAL` casts) -/

/-- Fold a list of decimal digit characters into a natural number. -/
def digitsVal (cs : List Char) : Nat :=
  cs.foldl (fun n c => 10 * n + (c.toNat - 48)) 0

/-- Parse a nonempty all-digit character sequence as a natural number;
`none` otherwise. -/
def parseNatList (cs : List Char) : Option Nat :=
  if cs.isEmpty then none
  else if cs.all Char.isDigit then some (digitsVal cs)
  else none

/-- PostgreSQL `::INTEGER` cast of a text value: optional leading minus sign
followed by digits; any other text fails the cast. -/
def parseIntText (s : String) : Option Int :=
  match s.toList with
  | '-' :: rest => (parseNatList rest).map (fun n => -(n : Int))
  | l => (parseNatList l).map (fun n => (n : Int))

/-- Split a character sequence at every full stop. -/
def splitDot : List Char → List (List Char)
  | [] => [[]]
  | c :: rest =>
      if c = '.' then [] :: splitDot rest
      else
        match splitDot rest with
        | [] => [[c]]
        | h :: t => (c :: h) :: t

/-- PostgreSQL `::REAL` cast of a text value, modelled over the rationals:
optional sign, then either all digits, or digits `.` digits (either side of
the point may be empty but not both). -/
def parseDecText (s : String) : Option Rat :=
  let signed : Int × List Char :=
    match s.toList with
    | '-' :: rest => (-1, rest)
    | l => (1, l)
  match splitDot signed.2 with
  | [a] => (parseNatList a).map (fun n => mkRat (signed.1 * (n : Int)) 1)
  | [a, b] =>
      if a.isEmpty ∧ b.isEmpty then none
      else if a.all Char.isDigit ∧ b.all Char.isDigit then
        some (mkRat (signed.1 * ((digitsVal a : Int) * (10 : Int) ^ b.length +
          (digitsVal b : Int))) ((10 : Nat) ^ b.length))
      else none
  | _ => none

/-- `NULLIF(v, '')::REAL`: SQL null and the empty string coerce to null; any
other text must parse as a decimal or the cast fails the statement. -/
def coerceRealOpt (v : Option String) : Except DbError (Option Rat) :=
  match v with
  | none => .ok none
  | some s =>
      if s = "" then .ok none
      else
        match parseDecText s with
        | none => .error .typeCoercion
        | some q => .ok (some q)

/-! ### Staged rows (one structure per staging table; every column nullable) -/

/-- A row of `stage_patients`. -/
structure StagePatient where
  pid : Option String
  gender : Option String
  dob : Option String
  race : Option String
  marital : Option String
  language : Option String
  poverty : Option String
deriving DecidableEq, Repr

/-- A row of `stage_admissions`. -/
structure StageAdmission where
  pid : Option String
  aid : Option String
  istart : Option String
  iend : Option String
deriving DecidableEq, Repr

/-- A row of `stage_diagnoses`. -/
structure StageDiagnosis where
  pid : Option String
  aid : Option String
  code : Option String
  descr : Option String
deriving DecidableEq, Repr

/-- A row of `stage_labs`. -/
structure StageLab where
  pid : Option String
  aid : Option String
  labname : Option String
  labvalue : Option String
  units : Option String
  datetime : Option String
deriving DecidableEq, Repr

/-! ### Warehouse rows -/

/-- A row of `lab_tests`: surrogate key, unique lab name, unit foreign key. -/
structure LabTest where
  lab_test_id : Nat
  lab_name : String
  unit_id : Nat
deriving DecidableEq, Repr

/-- A row of `patients` (timestamps kept as opaque text). -/
structure PatientRow where
  pid : String
  gender : Option Nat
  dob : String
  race : Option Nat
  marital : Option Nat
  language : Option Nat
  poverty : Option Rat
deriving DecidableEq, Repr

/-- A row of `admissions`. -/
structure AdmissionRow where
  pid : String
  aid : Int
  astart : String
  aend : Option String
deriving DecidableEq, Repr

/-- A row of `admission_primary_diagnoses`. -/
structure APDRow where
  pid : String
  aid : Int
  code : String
deriving DecidableEq, Repr

/-- A row of `admission_lab_results`. -/
structure LabResultRow where
  pid : String
  aid : Int
  lab_test_id : Nat
  labvalue : Option Rat
  datetime : String
deriving DecidableEq, Repr

/-- The whole database state: four staging tables, the dimension tables,
the entity tables and the fact tables. -/
structure DbState where
  stage_patients : List StagePatient
  stage_admissions : List StageAdmission
  stage_diagnoses : List StageDiagnosis
  stage_labs : List StageLab
  genders : List (Nat × String)
  races : List (Nat × String)
  marital_statuses : List (Nat × String)
  languages : List (Nat × String)
  lab_units : List (Nat × String)
  lab_tests : List LabTest
  diagnosis_codes : List (String × String)
  patients : List PatientRow
  admissions : List AdmissionRow
  admission_primary_diagnoses : List APDRow
  admission_lab_results : List LabResultRow
deriving DecidableEq, Repr

/-- `STAGING_CREATE_SQL`: every table dropped and recreated empty. -/
def freshDb : DbState :=
  ⟨[], [], [], [], [], [], [], [], [], [], [], [], [], [], []⟩

/-- The parsed contents of the four source extract files. -/
structure SourceFiles where
  patients : List StagePatient
  admissions : List StageAdmission
  diagnoses : List StageDiagnosis
  labs : List StageLab
deriving DecidableEq, Repr

/-! ### `load_tsv_to_stage`: the raw extract reader and staging loader

A TSV file is a header row plus data rows of raw text fields.  A record is
read as `csv.DictReader` does: the header is zipped with the row's fields,
so a row with fewer fields than the header yields no value (null) for the
trailing columns, and fields beyond the header are dropped.  The loader
first checks existence and required columns (raising before any database
mutation), then deletes all prior rows and inserts every record, batch by
batch. -/

/-- A tab-separated source file: one header row and the data rows. -/
structure TsvFile where
  header : List String
  rows : List (List String)
deriving DecidableEq, Repr

/-- The value a `csv.DictReader` record gives for column `c`:
the field paired with `c` when the header is zipped with the row. -/
def cellOf (header fields : List String) (c : String) : Option String :=
  (header.zip fields).lookup c

/-- `[row.get(c, None) for c in expected_columns]`: the tuple of values
inserted into the staging table for one record. -/
def stagedRecord (header expected fields : List String) : List (Option String) :=
  expected.map (cellOf header fields)

/-- Split a list into consecutive batches of size `n` (the last may be
shorter); with `n = 0` the whole list is a single batch, as the Python
batch counter then never triggers a mid-loop flush. -/
def chunks (n : Nat) (l : List α) : List (List α) :=
  if h0 : n = 0 then [l]
  else if h : l.isEmpty then []
  else l.take n :: chunks n (l.drop n)
termination_by l.length
decreasing_by
  simp only [List.length_drop]
  have : l.length ≠ 0 := by
    intro hl
    rw [List.isEmpty_iff_length_eq_zero] at h
    exact h hl
  omega

/-- `load_tsv_to_stage(conn, filepath, stage_table, expected_columns,
batch_size)`.  `file = none` models a nonexistent path.  On success the
staging table's prior contents are deleted and every record of the file is
inserted in batches; on error nothing is mutated and `prior` stays. -/
def load_tsv_to_stage (file : Option TsvFile) (expected : List String)
    (batch_size : Nat) (_prior : List (List (Option String))) :
    Except DbError (List (List (Option String))) :=
  match file with
  | none => .error .missingFile
  | some f =>
      if (expected.filter (fun c => ¬ c ∈ f.header)).isEmpty then
        let recs := f.rows.map (stagedRecord f.header expected)
        .ok ((chunks batch_size recs).foldl (fun t b => t ++ b) [])
      else .error .schemaMismatch

/-! ### `build_dimensions` -/

/-- `INSERT ... ON CONFLICT (desc) DO NOTHING` of one descriptor value into
a dimension table, the surrogate key auto-assigned as the next position. -/
def dimInsert (tbl : List (Nat × String)) (v : String) : List (Nat × String) :=
  if tbl.any (fun p => p.2 = v) then tbl else tbl ++ [(tbl.length + 1, v)]

/-- `INSERT INTO dim SELECT DISTINCT col FROM stage WHERE col IS NOT NULL
AND col <> '' ON CONFLICT DO NOTHING`, processing staged values in row
order (first occurrence wins). -/
def buildDim (tbl : List (Nat × String)) (vals : List (Option String)) :
    List (Nat × String) :=
  ((vals.filterMap id).filter (fun v => v ≠ "")).foldl dimInsert tbl

/-- The join of one staged lab row against `lab_units`
(`JOIN lab_units u ON u.unit_string = s.LabUnits` with
`WHERE s.LabName IS NOT NULL AND s.LabName <> ''`): the (lab name, unit id)
pair it contributes, or `none` when it is filtered or joined away. -/
def labTestJoin (units : List (Nat × String)) (r : StageLab) :
    Option (String × Nat) :=
  match r.labname, r.units with
  | some n, some u =>
      if n = "" then none
      else (units.find? (fun p => p.2 = u)).map (fun p => (n, p.1))
  | _, _ => none

/-- Insert one joined (name, unit) pair into `lab_tests`,
`ON CONFLICT (lab_name) DO NOTHING`. -/
def labTestInsert (tbl : List LabTest) (nu : String × Nat) : List LabTest :=
  if tbl.any (fun t => t.lab_name = nu.1) then tbl
  else tbl ++ [⟨tbl.length + 1, nu.1, nu.2⟩]

/-- The `lab_tests` insert statement of `build_dimensions`. -/
def buildLabTests (tbl : List LabTest) (units : List (Nat × String))
    (labs : List StageLab) : List LabTest :=
  (labs.filterMap (labTestJoin units)).foldl labTestInsert tbl

/-- The `diagnosis_codes` insert statement: distinct (code, description)
pairs with a non-null nonempty code, `ON CONFLICT (diagnosis_code) DO
NOTHING`; a null description on an inserted row violates the column's
NOT NULL constraint. -/
def buildDiagCodes (tbl : List (String × String)) (rows : List StageDiagnosis) :
    Except DbError (List (String × String)) :=
  rows.foldlM
    (fun acc r =>
      match r.code with
      | none => .ok acc
      | some c =>
          if c = "" then .ok acc
          else if acc.any (fun d => d.1 = c) then .ok acc
          else
            match r.descr with
            | none => .error .notNull
            | some d => .ok (acc ++ [(c, d)]))
    tbl

/-- `build_dimensions(conn)`: the seven dimension-building statements in
source order (lab units before lab tests). -/
def build_dimensions (db : DbState) : Except DbError DbState := do
  let genders := buildDim db.genders (db.stage_patients.map (fun r => r.gender))
  let races := buildDim db.races (db.stage_patients.map (fun r => r.race))
  let maritals :=
    buildDim db.marital_statuses (db.stage_patients.map (fun r => r.marital))
  let langs := buildDim db.languages (db.stage_patients.map (fun r => r.language))
  let units := buildDim db.lab_units (db.stage_labs.map (fun r => r.units))
  let tests := buildLabTests db.lab_tests units db.stage_labs
  let codes ← buildDiagCodes db.diagnosis_codes db.stage_diagnoses
  pure { db with
    genders := genders, races := races, marital_statuses := maritals,
    languages := langs, lab_units := units, lab_tests := tests,
    diagnosis_codes := codes }

/-! ### `load_entities` -/

/-- `LEFT JOIN dim ON dim.desc = s.col` projected to the surrogate key:
exact-match lookup; null or unmatched text yields a null key. -/
def resolveDim (dim : List (Nat × String)) (v : Option String) : Option Nat :=
  match v with
  | none => none
  | some s => (dim.find? (fun p => p.2 = s)).map Prod.fst

/-- The SELECT projection of one staged patient row: dimension lookups,
`NULLIF(poverty, '')::REAL`, and the NOT NULL constraints of the `patients`
insert (`patient_id` is the primary key, `patient_dob` is NOT NULL). -/
def projPatient (gn rc ms lg : List (Nat × String)) (r : StagePatient) :
    Except DbError PatientRow :=
  match coerceRealOpt r.poverty with
  | .error e => .error e
  | .ok pov =>
      match r.pid, r.dob with
      | some p, some d =>
          .ok ⟨p, resolveDim gn r.gender, d, resolveDim rc r.race,
            resolveDim ms r.marital, resolveDim lg r.language, pov⟩
      | _, _ => .error .notNull

/-- Process one staged patient row: project it, then insert
`ON CONFLICT (patient_id) DO NOTHING`. -/
def patStep (gn rc ms lg : List (Nat × String)) (t : List PatientRow)
    (r : StagePatient) : Except DbError (List PatientRow) :=
  match projPatient gn rc ms lg r with
  | .error e => .error e
  | .ok p => .ok (if t.any (fun q => q.pid = p.pid) then t else t ++ [p])

/-- The `patients` insert statement of `load_entities`, row by row. -/
def loadPatients (gn rc ms lg : List (Nat × String)) (rows : List StagePatient)
    (t : List PatientRow) : Except DbError (List PatientRow) :=
  rows.foldlM (patStep gn rc ms lg) t

/-- Process one staged admission row: the SELECT-list cast
`s.AdmissionID::INTEGER` is evaluated first (a non-numeric identifier fails
the whole statement), then the insert's NOT NULL constraints, then
`ON CONFLICT (patient_id, admission_id) DO NOTHING`, and for a genuinely
inserted row the foreign key into `patients`. -/
def admStep (pats : List PatientRow) (t : List AdmissionRow)
    (r : StageAdmission) : Except DbError (List AdmissionRow) :=
  let aidCast : Except DbError (Option Int) :=
    match r.aid with
    | none => .ok none
    | some s =>
        match parseIntText s with
        | none => .error .typeCoercion
        | some n => .ok (some n)
  match aidCast with
  | .error e => .error e
  | .ok aidOpt =>
      match r.pid, aidOpt, r.istart with
      | some p, some a, some st =>
          if t.any (fun x => x.pid = p ∧ x.aid = a) then .ok t
          else if pats.any (fun q => q.pid = p) then .ok (t ++ [⟨p, a, st, r.iend⟩])
          else .error .referentialIntegrity
      | _, _, _ => .error .notNull

/-- The `admissions` insert statement of `load_entities`, row by row. -/
def loadAdmissions (pats : List PatientRow) (rows : List StageAdmission)
    (t : List AdmissionRow) : Except DbError (List AdmissionRow) :=
  rows.foldlM (admStep pats) t

/-- `load_entities(conn)`: patients, then admissions. -/
def load_entities (db : DbState) : Except DbError DbState := do
  let pats ← loadPatients db.genders db.races db.marital_statuses db.languages
    db.stage_patients db.patients
  let adms ← loadAdmissions pats db.stage_admissions db.admissions
  pure { db with patients := pats, admissions := adms }

/-! ### `build_facts` -/

/-- Whether a staged diagnosis row survives the
`JOIN diagnosis_codes d ON d.diagnosis_code = s.PrimaryDiagnosisCode`. -/
def diagMatches (codes : List (String × String)) (r : StageDiagnosis) : Bool :=
  match r.code with
  | none => false
  | some c => codes.any (fun d => d.1 = c)

/-- Process one staged diagnosis row of the `admission_primary_diagnoses`
insert: rows the dimension join drops contribute nothing; surviving rows are
cast, checked NOT NULL, inserted `ON CONFLICT (patient_id, admission_id) DO
NOTHING`, with the foreign key into `admissions` checked on real inserts. -/
def diagStep (codes : List (String × String)) (adms : List AdmissionRow)
    (t : List APDRow) (r : StageDiagnosis) : Except DbError (List APDRow) :=
  match r.code with
  | none => .ok t
  | some c =>
      if codes.any (fun d => d.1 = c) then
        match r.pid, r.aid with
        | some p, some s =>
            match parseIntText s with
            | none => .error .typeCoercion
            | some a =>
                if t.any (fun x => x.pid = p ∧ x.aid = a) then .ok t
                else if adms.any (fun ad => ad.pid = p ∧ ad.aid = a) then
                  .ok (t ++ [⟨p, a, c⟩])
                else .error .referentialIntegrity
        | _, _ => .error .notNull
      else .ok t

/-- The `admission_primary_diagnoses` insert statement, row by row. -/
def loadDiagFacts (codes : List (String × String)) (adms : List AdmissionRow)
    (rows : List StageDiagnosis) (t : List APDRow) :
    Except DbError (List APDRow) :=
  rows.foldlM (diagStep codes adms) t

/-- The `JOIN lab_tests lt ON lt.lab_name = s.LabName` of one staged lab
row: the lab-test surrogate key it resolves to, or `none` when dropped. -/
def labFactJoin (tests : List LabTest) (r : StageLab) : Option Nat :=
  match r.labname with
  | none => none
  | some n => (tests.find? (fun t => t.lab_name = n)).map (fun t => t.lab_test_id)

/-- Process one staged lab row of the `admission_lab_results` insert:
join to `lab_tests`, cast the admission identifier and the lab value,
check NOT NULL, insert `ON CONFLICT (patient_id, admission_id, lab_test_id,
lab_datetime) DO NOTHING` with the foreign key into `admissions`. -/
def labFactStep (tests : List LabTest) (adms : List AdmissionRow)
    (t : List LabResultRow) (r : StageLab) : Except DbError (List LabResultRow) :=
  match labFactJoin tests r with
  | none => .ok t
  | some ltid =>
      match coerceRealOpt r.labvalue with
      | .error e => .error e
      | .ok v =>
          match r.pid, r.aid, r.datetime with
          | some p, some s, some dt =>
              match parseIntText s with
              | none => .error .typeCoercion
              | some a =>
                  if t.any (fun x =>
                      x.pid = p ∧ x.aid = a ∧ x.lab_test_id = ltid ∧
                        x.datetime = dt) then .ok t
                  else if adms.any (fun ad => ad.pid = p ∧ ad.aid = a) then
                    .ok (t ++ [⟨p, a, ltid, v, dt⟩])
                  else .error .referentialIntegrity
          | _, _, _ => .error .notNull

/-- The `admission_lab_results` insert statement, row by row. -/
def loadLabFacts (tests : List LabTest) (adms : List AdmissionRow)
    (rows : List StageLab) (t : List LabResultRow) :
    Except DbError (List LabResultRow) :=
  rows.foldlM (labFactStep tests adms) t

/-- `build_facts(conn)`: primary diagnoses, then lab results. -/
def build_facts (db : DbState) : Except DbError DbState := do
  let diags ← loadDiagFacts db.diagnosis_codes db.admissions db.stage_diagnoses
    db.admission_primary_diagnoses
  let labs ← loadLabFacts db.lab_tests db.admissions db.stage_labs
    db.admission_lab_results
  pure { db with
    admission_primary_diagnoses := diags, admission_lab_results := labs }

/-! ### The pipeline entry point -/

/-- The `__main__` block: execute `STAGING_CREATE_SQL` (drop and recreate
every table, discarding whatever state the warehouse held), load the four
source files into the freshly created staging tables (each load clears the
table first — a no-op here since the tables were just recreated — and
inserts all records), then build dimensions, load entities and build
facts. -/
def run_pipeline (src : SourceFiles) (_priorState : DbState) :
    Except DbError DbState := do
  let db := { freshDb with
    stage_patients := src.patients,
    stage_admissions := src.admissions,
    stage_diagnoses := src.diagnoses,
    stage_labs := src.labs }
  let db ← build_dimensions db
  let db ← load_entities db
  let db ← build_facts db
  pure db

/-- The database state right after table recreation and staging: empty
warehouse tables, staging tables holding exactly the source records. -/
def stagedDb (src : SourceFiles) : DbState :=
  { freshDb with
    stage_patients := src.patients,
    stage_admissions := src.admissions,
    stage_diagnoses := src.diagnoses,
    stage_labs := src.labs }

theorem run_pipeline_eq (src : SourceFiles) (d : DbState) :
    run_pipeline src d =
      build_dimensions (stagedDb src) >>= fun db1 =>
      load_entities db1 >>= fun db2 =>
      build_facts db2 >>= fun db3 => pure db3 := rfl

/-! ### Lemmas about batching and record reading -/

/-- Concatenating the batches of a list restores the list, whatever the
batch size: batching never loses or duplicates records. -/
theorem chunks_foldl (n : Nat) (l : List α) :
    ∀ acc : List α, (chunks n l).foldl (fun t b => t ++ b) acc = acc ++ l := by
  induction l using chunks.induct (n := n) with
  | case1 l hn => intro acc; simp [chunks, hn]
  | case2 l hn hl =>
      intro acc
      rw [List.isEmpty_iff] at hl
      simp [chunks, hn, hl]
  | case3 l hn hl ih =>
      intro acc
      rw [chunks, dif_neg hn, dif_neg hl]
      rw [List.foldl_cons, ih (acc ++ l.take n), List.append_assoc,
        List.take_append_drop]

/-- A column that occurs in the header only at positions past the end of the
record's field list reads as null (`csv.DictReader` pads missing trailing
fields with `None`). -/
theorem cellOf_eq_none_of_trailing (header fields : List String) (c : String)
    (h : ∀ i (hi : i < header.length), header.get ⟨i, hi⟩ = c →
      fields.length ≤ i) :
    cellOf header fields c = none := by
  induction header generalizing fields with
  | nil => simp [cellOf]
  | cons hd tl ih =>
      cases fields with
      | nil => simp [cellOf]
      | cons x xs =>
          have hne : (c == hd) = false := by
            have := h 0 (by simp)
            simp only [List.get] at this
            by_contra hb
            rw [Bool.not_eq_false, beq_iff_eq] at hb
            have := this hb.symm
            simp at this
          simp only [cellOf, List.zip_cons_cons, List.lookup_cons, hne]
          apply ih
          intro i hi hget
          have := h (i + 1) (by simpa using Nat.succ_lt_succ hi)
            (by simpa using hget)
          simpa using Nat.le_of_succ_le_succ this

/-- A key found in the front part of an association list is looked up there
also after appending more entries. -/
theorem lookup_append_of_isSome {l l' : List (String × String)} (c : String)
    (h : (l.lookup c).isSome) : (l ++ l').lookup c = l.lookup c := by
  induction l with
  | nil => simp at h
  | cons x xs ih =>
      rcases x with ⟨k, v⟩
      by_cases hk : c = k
      · simp [List.lookup_cons, hk]
      · have hk' : (c == k) = false := by simpa using hk
        simp only [List.cons_append, List.lookup_cons, hk'] at h ⊢
        exact ih h

/-- Zipping a header with an equally long record makes every header column
retrievable. -/
theorem lookup_zip_isSome {header fields : List String} (c : String)
    (hc : c ∈ header) (hlen : header.length = fields.length) :
    ((header.zip fields).lookup c).isSome := by
  induction header generalizing fields with
  | nil => simp at hc
  | cons h tl ih =>
      cases fields with
      | nil => simp at hlen
      | cons x xs =>
          by_cases hk : c = h
          · simp [List.zip_cons_cons, List.lookup_cons, hk]
          · have hk' : (c == h) = false := by simpa using hk
            have hc' : c ∈ tl := by
              rcases List.mem_cons.mp hc with h1 | h1
              · exact absurd h1 hk
              · exact h1
            simp only [List.zip_cons_cons, List.lookup_cons, hk']
            exact ih hc' (by simpa using hlen)

/-- C8: for every input file whose header carries the required columns, a
successful staging-loader run discards all prior rows of the container and
inserts every record of the file in batches, so afterwards the container
holds exactly the records of the most recent input file, in order; and a
record with fewer fields than the header reads null for each required
column occurring only past the record's end. -/
theorem stage_load_replaces_container (f : TsvFile) (expected : List String)
    (batch_size : Nat) (prior : List (List (Option String)))
    (hcols : ∀ c ∈ expected, c ∈ f.header) :
    load_tsv_to_stage (some f) expected batch_size prior =
      .ok (f.rows.map (stagedRecord f.header expected)) ∧
    (∀ (fields : List String) (c : String),
      (∀ i (hi : i < f.header.length), f.header.get ⟨i, hi⟩ = c →
        fields.length ≤ i) →
      cellOf f.header fields c = none) := by
  constructor
  · have hempty : (expected.filter (fun c => ¬ c ∈ f.header)).isEmpty := by
      rw [List.isEmpty_iff, List.filter_eq_nil_iff]
      intro c hc
      simpa using hcols c hc
    simp only [load_tsv_to_stage, hempty, if_true]
    rw [chunks_foldl]
    simp
  · intro fields c h
    exact cellOf_eq_none_of_trailing f.header fields c h

/-- Closed witness for `stage_load_replaces_container`: a two-column file
whose second record misses its trailing field. -/
theorem stage_load_replaces_container_witness :
    load_tsv_to_stage (some ⟨["A", "B"], [["a1", "b1"], ["a2"]]⟩) ["A", "B"]
        5 [[some "old"]] =
      .ok [[some "a1", some "b1"], [some "a2", none]] ∧
    cellOf ["A", "B"] ["a2"] "B" = none := by
  have h := stage_load_replaces_container ⟨["A", "B"], [["a1", "b1"], ["a2"]]⟩
    ["A", "B"] 5 [[some "old"]] (by decide)
  refine ⟨?_, ?_⟩
  · rw [h.1]; decide
  · exact h.2 ["a2"] "B" (by decide)

/-- C9: the raw extract reader fails with a missing-file error when the
path does not exist, fails with a schema-mismatch error when a required
column is absent from the header — in the model both error outcomes carry
no state change, matching that in the source the checks precede the
`DELETE` and all inserts — and an extra column appended to the header
(with its extra field on each record) leaves the staged result unchanged:
unknown columns are ignored. -/
theorem reader_validation_errors (f : TsvFile) (expected : List String)
    (batch_size : Nat) (prior : List (List (Option String)))
    (c c' : String) (extra : List String) :
    (load_tsv_to_stage none expected batch_size prior = .error .missingFile) ∧
    (c ∈ expected → ¬ c ∈ f.header →
      load_tsv_to_stage (some f) expected batch_size prior =
        .error .schemaMismatch) ∧
    ((∀ e ∈ expected, e ∈ f.header) →
      (∀ row ∈ f.rows, row.length = f.header.length) →
      extra.length = f.rows.length →
      load_tsv_to_stage
          (some ⟨f.header ++ [c'], (f.rows.zip extra).map
            (fun pr => pr.1 ++ [pr.2])⟩) expected batch_size prior =
        load_tsv_to_stage (some f) expected batch_size prior) := by
  refine ⟨rfl, ?_, ?_⟩
  · intro hc hnc
    have hne : ¬ (expected.filter (fun e => ¬ e ∈ f.header)).isEmpty := by
      have hmem : c ∈ expected.filter (fun e => ¬ e ∈ f.header) :=
        List.mem_filter.mpr ⟨hc, by simpa using hnc⟩
      rw [List.isEmpty_iff]
      intro hnil
      rw [hnil] at hmem
      simp at hmem
    simp only [load_tsv_to_stage, if_neg hne]
  · intro hcols hrows hlen
    have hempty : (expected.filter (fun e => ¬ e ∈ f.header)).isEmpty := by
      rw [List.isEmpty_iff, List.filter_eq_nil_iff]
      intro e he
      simpa using hcols e he
    have hempty' :
        (expected.filter (fun e => ¬ e ∈ f.header ++ [c'])).isEmpty := by
      rw [List.isEmpty_iff, List.filter_eq_nil_iff]
      intro e he
      have h2 : e ∈ f.header ∨ e = c' := Or.inl (hcols e he)
      rcases h2 with h2 | h2 <;> simp [h2]
    simp only [load_tsv_to_stage, hempty, hempty', if_true]
    congr 1
    rw [chunks_foldl, chunks_foldl]
    simp only [List.nil_append]
    have hzlen : (f.rows.zip extra).length = f.rows.length := by
      simp [List.length_zip, hlen]
    apply List.ext_getElem
    · simp [hzlen]
    · intro i h1 h2
      have hi : i < f.rows.length := by simpa using h2
      simp only [List.getElem_map, List.getElem_zip]
      unfold stagedRecord
      apply List.map_congr_left
      intro e he
      have hrowlen : f.rows[i].length = f.header.length :=
        hrows _ (List.getElem_mem hi)
      unfold cellOf
      rw [List.zip_append (by simpa using hrowlen.symm)]
      exact lookup_append_of_isSome e
        (lookup_zip_isSome e (hcols e he) hrowlen.symm)

/-- Closed witness for `reader_validation_errors`: a file missing required
column `C`, and a file with an ignored extra column `X`. -/
theorem reader_validation_errors_witness :
    (load_tsv_to_stage none ["A"] 5 [] = .error .missingFile) ∧
    (load_tsv_to_stage (some ⟨["A", "B"], [["a1", "b1"]]⟩) ["A", "C"] 5 [] =
      .error .schemaMismatch) ∧
    (load_tsv_to_stage (some ⟨["A", "B"] ++ ["X"],
        [(["a1", "b1"], "x1")].map (fun pr => pr.1 ++ [pr.2])⟩)
        ["A", "B"] 5 [] =
      load_tsv_to_stage (some ⟨["A", "B"], [["a1", "b1"]]⟩) ["A", "B"] 5 []) := by
  have h := reader_validation_errors ⟨["A", "B"], [["a1", "b1"]]⟩ ["A", "C"]
    5 [] "C" "X" ["x1"]
  refine ⟨h.1, h.2.1 (by decide) (by decide), ?_⟩
  have h2 := reader_validation_errors ⟨["A", "B"], [["a1", "b1"]]⟩ ["A", "B"]
    5 [] "A" "X" ["x1"]
  exact h2.2.2 (by decide) (by decide) (by decide)

/-! ### Lemmas about dimension building -/

theorem dimInsert_snd_mem (tbl : List (Nat × String)) (x v : String) :
    v ∈ (dimInsert tbl x).map Prod.snd ↔ v ∈ tbl.map Prod.snd ∨ v = x := by
  unfold dimInsert
  by_cases h : tbl.any (fun p => p.2 = x)
  · simp only [h, if_true]
    constructor
    · exact Or.inl
    · rintro (hv | rfl)
      · exact hv
      · rcases List.any_eq_true.mp h with ⟨p, hp, hpx⟩
        exact List.mem_map.mpr ⟨p, hp, by simpa using hpx⟩
  · simp only [h, if_false, List.map_append, List.map_cons, List.map_nil]
    simp

theorem dimInsert_snd_nodup (tbl : List (Nat × String)) (x : String)
    (h : (tbl.map Prod.snd).Nodup) :
    ((dimInsert tbl x).map Prod.snd).Nodup := by
  unfold dimInsert
  by_cases hx : tbl.any (fun p => p.2 = x)
  · rw [if_pos hx]; exact h
  · have hnx : x ∉ tbl.map Prod.snd := by
      intro hmem
      rcases List.mem_map.mp hmem with ⟨p, hp, hpx⟩
      exact hx (List.any_eq_true.mpr ⟨p, hp, by simpa using hpx⟩)
    rw [if_neg hx, List.map_append, List.nodup_append]
    refine ⟨h, by simp, ?_⟩
    intro a ha hb
    simp only [List.map_cons, List.map_nil, List.mem_singleton] at hb
    exact hnx (hb ▸ ha)

theorem foldl_dimInsert_snd_mem (l : List String) :
    ∀ (acc : List (Nat × String)) (v : String),
      v ∈ (l.foldl dimInsert acc).map Prod.snd ↔
        v ∈ acc.map Prod.snd ∨ v ∈ l := by
  induction l with
  | nil => intro acc v; simp
  | cons x xs ih =>
      intro acc v
      rw [List.foldl_cons, ih, dimInsert_snd_mem]
      constructor
      · rintro ((h | h) | h)
        · exact Or.inl h
        · exact Or.inr (by simp [h])
        · exact Or.inr (List.mem_cons_of_mem x h)
      · rintro (h | h)
        · exact Or.inl (Or.inl h)
        · rcases List.mem_cons.mp h with h | h
          · exact Or.inl (Or.inr h)
          · exact Or.inr h

theorem foldl_dimInsert_snd_nodup (l : List String) :
    ∀ acc : List (Nat × String), (acc.map Prod.snd).Nodup →
      ((l.foldl dimInsert acc).map Prod.snd).Nodup := by
  induction l with
  | nil => intro acc h; simpa using h
  | cons x xs ih =>
      intro acc h
      rw [List.foldl_cons]
      exact ih _ (dimInsert_snd_nodup acc x h)

/-- The descriptor set of a dimension built over an empty table: exactly the
distinct non-null, nonempty staged values. -/
theorem buildDim_snd_mem (vals : List (Option String)) (v : String) :
    v ∈ (buildDim [] vals).map Prod.snd ↔ some v ∈ vals ∧ v ≠ "" := by
  unfold buildDim
  rw [foldl_dimInsert_snd_mem]
  simp only [List.map_nil, List.not_mem_nil, false_or, List.mem_filter,
    List.mem_filterMap, id]
  constructor
  · rintro ⟨⟨a, ha, rfl⟩, hne⟩
    exact ⟨ha, by simpa using hne⟩
  · rintro ⟨hv, hne⟩
    exact ⟨⟨some v, hv, rfl⟩, by simpa using hne⟩

/-- No two rows of a built dimension share a descriptor value. -/
theorem buildDim_snd_nodup (vals : List (Option String)) :
    ((buildDim [] vals).map Prod.snd).Nodup :=
  foldl_dimInsert_snd_nodup _ [] (by simp)

/-- The empty string never enters a dimension. -/
theorem buildDim_snd_ne_empty (vals : List (Option String)) :
    ¬ "" ∈ (buildDim [] vals).map Prod.snd := by
  rw [buildDim_snd_mem]
  simp

/-! ### Inversion of the pipeline stages -/

theorem except_bind_ok {ε α β : Type} {a : Except ε α} {f : α → Except ε β}
    {c : β} (h : a >>= f = .ok c) : ∃ b, a = .ok b ∧ f b = .ok c := by
  cases a with
  | error e => simp [Bind.bind, Except.bind] at h
  | ok b => exact ⟨b, rfl, by simpa [Bind.bind, Except.bind] using h⟩

theorem build_dimensions_ok {db db' : DbState}
    (h : build_dimensions db = .ok db') :
    ∃ codes, buildDiagCodes db.diagnosis_codes db.stage_diagnoses = .ok codes ∧
      db' = { db with
        genders := buildDim db.genders
          (db.stage_patients.map (fun r => r.gender)),
        races := buildDim db.races (db.stage_patients.map (fun r => r.race)),
        marital_statuses := buildDim db.marital_statuses
          (db.stage_patients.map (fun r => r.marital)),
        languages := buildDim db.languages
          (db.stage_patients.map (fun r => r.language)),
        lab_units := buildDim db.lab_units
          (db.stage_labs.map (fun r => r.units)),
        lab_tests := buildLabTests db.lab_tests
          (buildDim db.lab_units (db.stage_labs.map (fun r => r.units)))
          db.stage_labs,
        diagnosis_codes := codes } := by
  unfold build_dimensions at h
  rcases except_bind_ok h with ⟨codes, hc, hp⟩
  refine ⟨codes, hc, ?_⟩
  simpa [pure, Except.pure] using hp.symm

theorem load_entities_ok {db db' : DbState} (h : load_entities db = .ok db') :
    ∃ pats adms,
      loadPatients db.genders db.races db.marital_statuses db.languages
        db.stage_patients db.patients = .ok pats ∧
      loadAdmissions pats db.stage_admissions db.admissions = .ok adms ∧
      db' = { db with patients := pats, admissions := adms } := by
  unfold load_entities at h
  rcases except_bind_ok h with ⟨pats, hp, h2⟩
  rcases except_bind_ok h2 with ⟨adms, ha, h3⟩
  exact ⟨pats, adms, hp, ha, by simpa [pure, Except.pure] using h3.symm⟩

theorem build_facts_ok {db db' : DbState} (h : build_facts db = .ok db') :
    ∃ diags labs,
      loadDiagFacts db.diagnosis_codes db.admissions db.stage_diagnoses
        db.admission_primary_diagnoses = .ok diags ∧
      loadLabFacts db.lab_tests db.admissions db.stage_labs
        db.admission_lab_results = .ok labs ∧
      db' = { db with
        admission_primary_diagnoses := diags,
        admission_lab_results := labs } := by
  unfold build_facts at h
  rcases except_bind_ok h with ⟨diags, hd, h2⟩
  rcases except_bind_ok h2 with ⟨labs, hl, h3⟩
  exact ⟨diags, labs, hd, hl, by simpa [pure, Except.pure] using h3.symm⟩

/-- A successful pipeline run decomposes into its three warehouse stages
applied to the freshly staged state. -/
theorem run_pipeline_ok {src : SourceFiles} {d w : DbState}
    (h : run_pipeline src d = .ok w) :
    ∃ db1 db2, build_dimensions (stagedDb src) = .ok db1 ∧
      load_entities db1 = .ok db2 ∧ build_facts db2 = .ok w := by
  rw [run_pipeline_eq] at h
  rcases except_bind_ok h with ⟨db1, h1, h2⟩
  rcases except_bind_ok h2 with ⟨db2, h3, h4⟩
  rcases except_bind_ok h4 with ⟨db3, h5, h6⟩
  have : db3 = w := by simpa [pure, Except.pure] using h6
  exact ⟨db1, db2, h1, h3, this ▸ h5⟩

/-- C7: after a pipeline run, each categorical dimension holds exactly the
distinct non-null, nonempty text values of its staged source column, each
value in exactly one row. -/
theorem dimension_descriptor_sets (src : SourceFiles) (d w : DbState)
    (h : run_pipeline src d = .ok w) :
    (∀ v, v ∈ w.genders.map Prod.snd ↔
      (some v ∈ src.patients.map (fun r => r.gender) ∧ v ≠ "")) ∧
    (w.genders.map Prod.snd).Nodup ∧
    (∀ v, v ∈ w.races.map Prod.snd ↔
      (some v ∈ src.patients.map (fun r => r.race) ∧ v ≠ "")) ∧
    (w.races.map Prod.snd).Nodup ∧
    (∀ v, v ∈ w.marital_statuses.map Prod.snd ↔
      (some v ∈ src.patients.map (fun r => r.marital) ∧ v ≠ "")) ∧
    (w.marital_statuses.map Prod.snd).Nodup ∧
    (∀ v, v ∈ w.languages.map Prod.snd ↔
      (some v ∈ src.patients.map (fun r => r.language) ∧ v ≠ "")) ∧
    (w.languages.map Prod.snd).Nodup ∧
    (∀ v, v ∈ w.lab_units.map Prod.snd ↔
      (some v ∈ src.labs.map (fun r => r.units) ∧ v ≠ "")) ∧
    (w.lab_units.map Prod.snd).Nodup := by
  rcases run_pipeline_ok h with ⟨db1, db2, h1, h2, h3⟩
  rcases build_dimensions_ok h1 with ⟨codes, hc, hdb1⟩
  rcases load_entities_ok h2 with ⟨pats, adms, hp, ha, hdb2⟩
  rcases build_facts_ok h3 with ⟨diags, labsr, hd, hl, hw⟩
  have hg : w.genders = buildDim [] (src.patients.map (fun r => r.gender)) := by
    subst hw hdb2 hdb1; simp [stagedDb, freshDb]
  have hr : w.races = buildDim [] (src.patients.map (fun r => r.race)) := by
    subst hw hdb2 hdb1; simp [stagedDb, freshDb]
  have hm : w.marital_statuses =
      buildDim [] (src.patients.map (fun r => r.marital)) := by
    subst hw hdb2 hdb1; simp [stagedDb, freshDb]
  have hla : w.languages =
      buildDim [] (src.patients.map (fun r => r.language)) := by
    subst hw hdb2 hdb1; simp [stagedDb, freshDb]
  have hu : w.lab_units = buildDim [] (src.labs.map (fun r => r.units)) := by
    subst hw hdb2 hdb1; simp [stagedDb, freshDb]
  rw [hg, hr, hm, hla, hu]
  exact ⟨fun v => buildDim_snd_mem _ v, buildDim_snd_nodup _,
    fun v => buildDim_snd_mem _ v, buildDim_snd_nodup _,
    fun v => buildDim_snd_mem _ v, buildDim_snd_nodup _,
    fun v => buildDim_snd_mem _ v, buildDim_snd_nodup _,
    fun v => buildDim_snd_mem _ v, buildDim_snd_nodup _⟩

/-! ### Where patient rows come from -/

theorem projPatient_pid {gn rc ms lg : List (Nat × String)} {r : StagePatient}
    {q : PatientRow} (h : projPatient gn rc ms lg r = .ok q) :
    r.pid = some q.pid := by
  unfold projPatient at h
  cases hpov : coerceRealOpt r.poverty with
  | error e => rw [hpov] at h; exact absurd h (by simp)
  | ok pov =>
      rw [hpov] at h
      cases hpid : r.pid with
      | none =>
          rw [hpid] at h
          cases hdob : r.dob with
          | none => rw [hdob] at h; exact absurd h (by simp)
          | some d => rw [hdob] at h; exact absurd h (by simp)
      | some p =>
          cases hdob : r.dob with
          | none => rw [hpid, hdob] at h; exact absurd h (by simp)
          | some d =>
              rw [hpid, hdob] at h
              simp only [Except.ok.injEq] at h
              rw [← h]

theorem patStep_mem {gn rc ms lg : List (Nat × String)} {t t1 : List PatientRow}
    {r : StagePatient} (h : patStep gn rc ms lg t r = .ok t1) :
    ∀ p ∈ t1, p ∈ t ∨ r.pid = some p.pid := by
  unfold patStep at h
  cases hq : projPatient gn rc ms lg r with
  | error e => rw [hq] at h; exact absurd h (by simp)
  | ok q =>
      rw [hq] at h
      simp only [Except.ok.injEq] at h
      subst h
      intro p hp
      by_cases hc : t.any (fun x => x.pid = q.pid)
      · rw [if_pos hc] at hp; exact Or.inl hp
      · rw [if_neg hc, List.mem_append] at hp
        rcases hp with hp | hp
        · exact Or.inl hp
        · have : p = q := by simpa using hp
          subst this
          exact Or.inr (projPatient_pid hq)

theorem loadPatients_mem {gn rc ms lg : List (Nat × String)}
    {rows : List StagePatient} :
    ∀ {t t' : List PatientRow}, loadPatients gn rc ms lg rows t = .ok t' →
      ∀ p ∈ t', p ∈ t ∨ some p.pid ∈ rows.map (fun r => r.pid) := by
  induction rows with
  | nil =>
      intro t t' h p hp
      have : t = t' := by
        simpa [loadPatients, List.foldlM, pure, Except.pure] using h
      subst this
      exact Or.inl hp
  | cons r rest ih =>
      intro t t' h p hp
      rw [loadPatients, List.foldlM_cons] at h
      rcases except_bind_ok h with ⟨t1, h1, h2⟩
      have h2' : loadPatients gn rc ms lg rest t1 = .ok t' := h2
      rcases ih h2' p hp with hmem | hmem
      · rcases patStep_mem h1 p hmem with hm | hm
        · exact Or.inl hm
        · exact Or.inr (by simp [hm])
      · exact Or.inr (by simp only [List.map_cons, List.mem_cons]; exact Or.inr hmem)

/-! ### Concrete scenario used by the counterexample and witnesses -/

/-- The happy-path patient of the spec scenarios. -/
def scenarioPatientA : StagePatient :=
  ⟨some "P1", some "Male", some "1980-01-01", some "White", some "Married",
   some "English", some "12.5"⟩

/-- The same patient after the source row changed (new poverty value). -/
def scenarioPatientA2 : StagePatient :=
  ⟨some "P1", some "Male", some "1980-01-01", some "White", some "Married",
   some "English", some "40"⟩

/-- A patient appended to the source file before the second run. -/
def scenarioPatientB : StagePatient :=
  ⟨some "P2", some "Female", some "1990-02-02", some "Asian", some "Single",
   some "Spanish", some ""⟩

/-- First-run source files: one patient. -/
def scenarioSrc1 : SourceFiles := ⟨[scenarioPatientA], [], [], []⟩

/-- Second-run source files: the first patient's row changed, one appended. -/
def scenarioSrc2 : SourceFiles := ⟨[scenarioPatientA2, scenarioPatientB], [], [], []⟩

/-- The warehouse after the first run. -/
def scenarioW1 : DbState :=
  (run_pipeline scenarioSrc1 freshDb).toOption.getD freshDb

/-- The warehouse after re-running on the modified sources. -/
def scenarioW2 : DbState :=
  (run_pipeline scenarioSrc2 scenarioW1).toOption.getD freshDb

/-- The patients-table row stored for a given patient identifier. -/
def findPatient (w : DbState) (p : String) : Option PatientRow :=
  w.patients.find? (fun q => q.pid = p)

/-- C1 counterexample: after an initial run, appending a patient row to the
source file while also changing patient `P1`'s row and re-running the full
pipeline does NOT leave `P1`'s pre-existing patient row unchanged — the
second run drops and rebuilds all tables, so `P1`'s row reflects the changed
source row. -/
theorem rerun_changes_preexisting_patient :
    run_pipeline scenarioSrc1 freshDb = .ok scenarioW1 ∧
    run_pipeline scenarioSrc2 scenarioW1 = .ok scenarioW2 ∧
    findPatient scenarioW1 "P1" ≠ none ∧
    findPatient scenarioW2 "P1" ≠ findPatient scenarioW1 "P1" := by decide

/-- C1 amended: re-running the full pipeline rebuilds the warehouse from the
current source files alone — the run's outcome is the same as running
against a fresh database, and every patient row of the new state comes from
the current source file (pre-existing rows are rebuilt, not preserved). -/
theorem rerun_rebuilds_from_current_source (src : SourceFiles)
    (w w' : DbState) (h : run_pipeline src w = .ok w') :
    run_pipeline src w = run_pipeline src freshDb ∧
    ∀ p ∈ w'.patients, some p.pid ∈ src.patients.map (fun r => r.pid) := by
  refine ⟨rfl, ?_⟩
  rcases run_pipeline_ok h with ⟨db1, db2, h1, h2, h3⟩
  rcases build_dimensions_ok h1 with ⟨codes, hc, hdb1⟩
  rcases load_entities_ok h2 with ⟨pats, adms, hp, ha, hdb2⟩
  rcases build_facts_ok h3 with ⟨diags, labsr, hd, hl, hw⟩
  have hpats : w'.patients = pats := by subst hw hdb2; simp
  have hstage : db1.stage_patients = src.patients := by
    subst hdb1; simp [stagedDb]
  have hempty : db1.patients = ([] : List PatientRow) := by
    subst hdb1; simp [stagedDb, freshDb]
  rw [hpats]
  intro p hp2
  rcases loadPatients_mem hp p hp2 with hm | hm
  · rw [hempty] at hm; simp at hm
  · rw [hstage] at hm; exact hm

/-- Closed witness for `rerun_rebuilds_from_current_source` at the concrete
re-run scenario. -/
theorem rerun_rebuilds_from_current_source_witness :
    run_pipeline scenarioSrc2 scenarioW1 = run_pipeline scenarioSrc2 freshDb ∧
    ∀ p ∈ scenarioW2.patients,
      some p.pid ∈ scenarioSrc2.patients.map (fun r => r.pid) :=
  rerun_rebuilds_from_current_source scenarioSrc2 scenarioW1 scenarioW2
    (by decide)

/-- C2: running the full pipeline twice in succession against identical,
unchanged source files yields exactly the warehouse state of running it
once — every run drops and rebuilds all tables from the staged sources, so
the second run reproduces the first's state row for row. -/
theorem pipeline_idempotent (src : SourceFiles) (d w : DbState)
    (h : run_pipeline src d = .ok w) : run_pipeline src w = .ok w := by
  have he : run_pipeline src w = run_pipeline src d := rfl
  rw [he, h]

/-- Closed witness for `pipeline_idempotent` at the concrete scenario. -/
theorem pipeline_idempotent_witness :
    run_pipeline scenarioSrc1 scenarioW1 = .ok scenarioW1 :=
  pipeline_idempotent scenarioSrc1 freshDb scenarioW1 (by decide)

/-- C10: every pipeline invocation starts by dropping and recreating all
tables, so the final warehouse state is a function of the current source
files alone — two runs from arbitrary prior states agree, and both agree
with a run from an empty database; no row of any earlier state can survive. -/
theorem pipeline_state_independent (src : SourceFiles) (d1 d2 : DbState) :
    run_pipeline src d1 = run_pipeline src d2 ∧
    run_pipeline src d1 = run_pipeline src freshDb :=
  ⟨rfl, rfl⟩

/-- Closed witness for `dimension_descriptor_sets` at the concrete
scenario run. -/
theorem dimension_descriptor_sets_witness :
    (∀ v, v ∈ scenarioW1.genders.map Prod.snd ↔
      (some v ∈ scenarioSrc1.patients.map (fun r => r.gender) ∧ v ≠ "")) ∧
    (scenarioW1.genders.map Prod.snd).Nodup ∧
    (∀ v, v ∈ scenarioW1.races.map Prod.snd ↔
      (some v ∈ scenarioSrc1.patients.map (fun r => r.race) ∧ v ≠ "")) ∧
    (scenarioW1.races.map Prod.snd).Nodup ∧
    (∀ v, v ∈ scenarioW1.marital_statuses.map Prod.snd ↔
      (some v ∈ scenarioSrc1.patients.map (fun r => r.marital) ∧ v ≠ "")) ∧
    (scenarioW1.marital_statuses.map Prod.snd).Nodup ∧
    (∀ v, v ∈ scenarioW1.languages.map Prod.snd ↔
      (some v ∈ scenarioSrc1.patients.map (fun r => r.language) ∧ v ≠ "")) ∧
    (scenarioW1.languages.map Prod.snd).Nodup ∧
    (∀ v, v ∈ scenarioW1.lab_units.map Prod.snd ↔
      (some v ∈ scenarioSrc1.labs.map (fun r => r.units) ∧ v ≠ "")) ∧
    (scenarioW1.lab_units.map Prod.snd).Nodup :=
  dimension_descriptor_sets scenarioSrc1 freshDb scenarioW1 (by decide)

/-! ### First-write-wins on admission primary diagnoses -/

/-- The code of the first staged diagnosis row surviving the
dimension join. -/
def firstMatchedCode (codes : List (String × String))
    (rows : List StageDiagnosis) : Option String :=
  (rows.find? (diagMatches codes)).bind (fun r => r.code)

/-- A staged diagnosis row the dimension join drops is a no-op for the fact
insert. -/
theorem diagStep_unmatched {codes : List (String × String)}
    {adms : List AdmissionRow} {t : List APDRow} {r : StageDiagnosis}
    (h : diagMatches codes r = false) : diagStep codes adms t r = .ok t := by
  cases hc : r.code with
  | none => simp [diagStep, hc]
  | some c =>
      have hany : codes.any (fun d => d.1 = c) = false := by
        unfold diagMatches at h
        rw [hc] at h
        exact h
      simp [diagStep, hc, hany]

/-- Dropping the join-excluded staged rows does not change the diagnosis
fact load: excluded rows contribute no fact row and raise no error. -/
theorem loadDiagFacts_filter (codes : List (String × String))
    (adms : List AdmissionRow) :
    ∀ (rows : List StageDiagnosis) (t : List APDRow),
      loadDiagFacts codes adms rows t =
        loadDiagFacts codes adms (rows.filter (diagMatches codes)) t := by
  intro rows
  induction rows with
  | nil => intro t; rfl
  | cons r rest ih =>
      intro t
      cases hm : diagMatches codes r with
      | true =>
          rw [List.filter_cons_of_pos hm]
          rw [loadDiagFacts, loadDiagFacts, List.foldlM_cons, List.foldlM_cons]
          cases hs : diagStep codes adms t r with
          | error e => simp [hs, Bind.bind, Except.bind]
          | ok t1 =>
              simp only [hs, Bind.bind, Except.bind]
              exact ih t1
      | false =>
          rw [List.filter_cons_of_neg (by rw [hm]; exact Bool.false_ne_true)]
          rw [loadDiagFacts, List.foldlM_cons, diagStep_unmatched hm]
          simp only [Bind.bind, Except.bind]
          exact ih t

/-- Once a fact row for the (patient, admission) pair is present, every
further staged row for that pair is skipped by the conflict policy. -/
theorem loadDiagFacts_steady {codes : List (String × String)}
    {adms : List AdmissionRow} {p astr : String} {a : Int}
    (hparse : parseIntText astr = some a) :
    ∀ (rows : List StageDiagnosis) (t : List APDRow),
      (∀ r ∈ rows, r.pid = some p ∧ r.aid = some astr) →
      t.any (fun x => x.pid = p ∧ x.aid = a) = true →
      loadDiagFacts codes adms rows t = .ok t := by
  intro rows
  induction rows with
  | nil => intro t _ _; rfl
  | cons r rest ih =>
      intro t hpair hconf
      have hstep : diagStep codes adms t r = .ok t := by
        cases hc : r.code with
        | none => simp [diagStep, hc]
        | some c =>
            by_cases hany : codes.any (fun d => d.1 = c)
            · have hconf' : ∃ x ∈ t, x.pid = p ∧ x.aid = a := by
                simpa using hconf
              simp [diagStep, hc, hany, (hpair r (by simp)).1,
                (hpair r (by simp)).2, hparse, hconf']
            · simp [diagStep, hc, hany]
      rw [loadDiagFacts, List.foldlM_cons, hstep]
      simp only [Bind.bind, Except.bind]
      exact ih t (fun r hr => hpair r (List.mem_cons_of_mem _ hr)) hconf

/-- C3: for staged diagnosis rows all bearing the same (patient, admission)
pair — regardless of their codes — the fact builder leaves exactly one
`admission_primary_diagnoses` row for that pair, bearing the code of the
first row surviving the dimension join; rows whose code has no dimension
entry contribute no fact row and raise no error. -/
theorem diag_fact_first_write_wins (codes : List (String × String))
    (adms : List AdmissionRow) (rows : List StageDiagnosis)
    (p astr : String) (a : Int)
    (hpair : ∀ r ∈ rows, r.pid = some p ∧ r.aid = some astr)
    (hparse : parseIntText astr = some a)
    (hadm : adms.any (fun ad => ad.pid = p ∧ ad.aid = a) = true) :
    (∀ c, firstMatchedCode codes rows = some c →
      loadDiagFacts codes adms rows [] = .ok [⟨p, a, c⟩]) ∧
    (firstMatchedCode codes rows = none →
      loadDiagFacts codes adms rows [] = .ok []) ∧
    (∀ (rows' : List StageDiagnosis) (t : List APDRow),
      loadDiagFacts codes adms rows' t =
        loadDiagFacts codes adms (rows'.filter (diagMatches codes)) t) := by
  refine ⟨?_, ?_, loadDiagFacts_filter codes adms⟩
  · intro c hfirst
    induction rows with
    | nil => simp [firstMatchedCode] at hfirst
    | cons r rest ih =>
        cases hm : diagMatches codes r with
        | true =>
            cases hc0 : r.code with
            | none => unfold diagMatches at hm; rw [hc0] at hm; simp at hm
            | some c0 =>
                have hany : codes.any (fun d => d.1 = c0) = true := by
                  unfold diagMatches at hm
                  rw [hc0] at hm
                  exact hm
                have hcc : c = c0 := by
                  unfold firstMatchedCode at hfirst
                  rw [List.find?_cons_of_pos _ hm, Option.some_bind, hc0]
                    at hfirst
                  exact (Option.some.injEq _ _ ▸ hfirst).symm
                subst hcc
                have hadm' : ∃ x ∈ adms, x.pid = p ∧ x.aid = a := by
                  simpa using hadm
                have hstep : diagStep codes adms [] r = .ok [⟨p, a, c⟩] := by
                  simp [diagStep, hc0, hany, (hpair r (by simp)).1,
                    (hpair r (by simp)).2, hparse, hadm']
                rw [loadDiagFacts, List.foldlM_cons, hstep]
                simp only [Bind.bind, Except.bind]
                exact loadDiagFacts_steady hparse rest [⟨p, a, c⟩]
                  (fun r2 hr2 => hpair r2 (List.mem_cons_of_mem _ hr2))
                  (by simp)
        | false =>
            have hrest : firstMatchedCode codes rest = some c := by
              unfold firstMatchedCode at hfirst ⊢
              rw [List.find?_cons_of_neg _ (by rw [hm]; exact Bool.false_ne_true)]
                at hfirst
              exact hfirst
            rw [loadDiagFacts, List.foldlM_cons, diagStep_unmatched hm]
            simp only [Bind.bind, Except.bind]
            exact ih (fun r2 hr2 => hpair r2 (List.mem_cons_of_mem _ hr2)) hrest
  · intro hnone
    have hall : ∀ r ∈ rows, diagMatches codes r = false := by
      intro r hr
      cases hf : rows.find? (diagMatches codes) with
      | none => simpa using List.find?_eq_none.mp hf r hr
      | some r2 =>
          have hm2 := List.find?_some hf
          unfold firstMatchedCode at hnone
          rw [hf, Option.some_bind] at hnone
          cases hc2 : r2.code with
          | none => unfold diagMatches at hm2; rw [hc2] at hm2; simp at hm2
          | some c2 => rw [hc2] at hnone; simp at hnone
    rw [loadDiagFacts_filter codes adms rows []]
    rw [List.filter_eq_nil_iff.mpr (by intro r hr; rw [hall r hr]; simp)]
    rfl

/-- Shared concrete input: two staged diagnosis rows for the same admission
with different, both-resolvable codes. -/
def wDiagCodes : List (String × String) := [("A", "da"), ("B", "db")]

def wDiagAdms : List AdmissionRow := [⟨"P1", 1, "2000-01-01", none⟩]

def wDiagRows : List StageDiagnosis :=
  [⟨some "P1", some "1", some "A", some "x"⟩,
   ⟨some "P1", some "1", some "B", some "y"⟩]

/-- Closed witness for `diag_fact_first_write_wins`: the first of two
conflicting codes wins. -/
theorem diag_fact_first_write_wins_witness :
    loadDiagFacts wDiagCodes wDiagAdms wDiagRows [] = .ok [⟨"P1", 1, "A"⟩] :=
  (diag_fact_first_write_wins wDiagCodes wDiagAdms wDiagRows "P1" "1" 1
    (by decide) (by decide) (by decide)).1 "A" (by decide)

/-! ### Entity builder: patients and admissions -/

theorem resolveDim_unmatched {dim : List (Nat × String)} {s : String}
    (h : ∀ q ∈ dim, q.2 ≠ s) : resolveDim dim (some s) = none := by
  have hf : dim.find? (fun p => p.2 = s) = none :=
    List.find?_eq_none.mpr (fun q hq => by simpa using h q hq)
  simp [resolveDim, hf]

theorem resolveDim_found {dim : List (Nat × String)} {i : Nat} {s : String}
    (hnd : (dim.map Prod.snd).Nodup) (hmem : (i, s) ∈ dim) :
    resolveDim dim (some s) = some i := by
  induction dim with
  | nil => simp at hmem
  | cons q rest ih =>
      rcases List.mem_cons.mp hmem with h | h
      · subst h
        have hf : List.find? (fun p => decide (p.2 = s)) ((i, s) :: rest) =
            some (i, s) := List.find?_cons_of_pos _ (by simp)
        simp [resolveDim, hf]
      · have hnd' : q.2 ∉ rest.map Prod.snd ∧ (rest.map Prod.snd).Nodup := by
          rw [List.map_cons, List.nodup_cons] at hnd
          exact hnd
        by_cases hq : q.2 = s
        · exfalso
          have hs : s ∈ rest.map Prod.snd :=
            List.mem_map.mpr ⟨(i, s), h, rfl⟩
          rw [hq] at hnd'
          exact hnd'.1 hs
        · have hf : List.find? (fun p => decide (p.2 = s)) (q :: rest) =
              List.find? (fun p => decide (p.2 = s)) rest :=
            List.find?_cons_of_neg _ (by simpa using hq)
          have hrec := ih hnd'.2 h
          simp only [resolveDim] at hrec ⊢
          rw [hf]
          exact hrec

theorem coerceRealOpt_ok (v : Option String)
    (hv : v = none ∨ v = some "" ∨
      ∃ s q, v = some s ∧ parseDecText s = some q) :
    ∃ pov, coerceRealOpt v = .ok pov ∧
      (v = none → pov = none) ∧ (v = some "" → pov = none) ∧
      (∀ s q, v = some s → parseDecText s = some q → pov = some q) := by
  rcases hv with hv | hv | ⟨s, q, hv, hq⟩
  · subst hv
    exact ⟨none, rfl, fun _ => rfl, by simp, by simp⟩
  · subst hv
    refine ⟨none, by simp [coerceRealOpt], by simp, fun _ => rfl, ?_⟩
    intro s q hs hq
    rw [Option.some.injEq] at hs
    subst hs
    have : parseDecText "" = none := by decide
    rw [this] at hq
    exact absurd hq (by simp)
  · subst hv
    have hne : s ≠ "" := by
      intro he
      subst he
      have : parseDecText "" = none := by decide
      rw [this] at hq
      exact absurd hq (by simp)
    refine ⟨some q, by simp [coerceRealOpt, hne, hq], by simp, by simp [hne], ?_⟩
    intro s2 q2 hs2 hq2
    rw [Option.some.injEq] at hs2
    subst hs2
    rw [hq] at hq2
    rw [Option.some.injEq] at hq2
    rw [hq2]

/-- C5: for a staged patient row with its identifier and date of birth
present and a well-formed poverty field, the entity builder resolves every
categorical field by exact match (null or unmatched text gives a null
foreign key, not an error), coerces an empty poverty string to null (not
zero, not an error), and inserts keyed by the patient identifier, skipping
silently when that identifier already exists. -/
theorem entity_patient_load (gn rc ms lg : List (Nat × String))
    (t : List PatientRow) (r : StagePatient) (pid d : String)
    (hpid : r.pid = some pid) (hdob : r.dob = some d)
    (hpov : r.poverty = none ∨ r.poverty = some "" ∨
      ∃ s q, r.poverty = some s ∧ parseDecText s = some q) :
    ∃ p, projPatient gn rc ms lg r = .ok p ∧ p.pid = pid ∧ p.dob = d ∧
      p.gender = resolveDim gn r.gender ∧
      p.race = resolveDim rc r.race ∧
      p.marital = resolveDim ms r.marital ∧
      p.language = resolveDim lg r.language ∧
      (∀ dim : List (Nat × String), resolveDim dim none = none) ∧
      (∀ (dim : List (Nat × String)) (s : String),
        (∀ q ∈ dim, q.2 ≠ s) → resolveDim dim (some s) = none) ∧
      (∀ (dim : List (Nat × String)) (i : Nat) (s : String),
        (dim.map Prod.snd).Nodup → (i, s) ∈ dim →
        resolveDim dim (some s) = some i) ∧
      (r.poverty = none → p.poverty = none) ∧
      (r.poverty = some "" → p.poverty = none) ∧
      (∀ s q, r.poverty = some s → parseDecText s = some q →
        p.poverty = some q) ∧
      loadPatients gn rc ms lg [r] t =
        .ok (if t.any (fun q => q.pid = pid) then t else t ++ [p]) := by
  rcases coerceRealOpt_ok r.poverty hpov with ⟨pov, hcv, hc1, hc2, hc3⟩
  refine ⟨⟨pid, resolveDim gn r.gender, d, resolveDim rc r.race,
    resolveDim ms r.marital, resolveDim lg r.language, pov⟩, ?_, rfl, rfl,
    rfl, rfl, rfl, rfl, fun _ => rfl,
    fun dim s h => resolveDim_unmatched h,
    fun dim i s hnd hm => resolveDim_found hnd hm, hc1, hc2, hc3, ?_⟩
  · simp [projPatient, hcv, hpid, hdob]
  · have hproj : projPatient gn rc ms lg r = .ok ⟨pid,
        resolveDim gn r.gender, d, resolveDim rc r.race,
        resolveDim ms r.marital, resolveDim lg r.language, pov⟩ := by
      simp [projPatient, hcv, hpid, hdob]
    rw [loadPatients, List.foldlM_cons, patStep, hproj]
    simp [Bind.bind, Except.bind, List.foldlM, pure, Except.pure]

/-- Closed witness for `entity_patient_load`: the spec's happy-path patient
row against freshly built dimensions, plus conflict-skip on a second load. -/
theorem entity_patient_load_witness :
    ∃ p, projPatient [(1, "Male")] [(1, "White")] [(1, "Married")]
        [(1, "English")] scenarioPatientA = .ok p ∧ p.pid = "P1" ∧
      p.dob = "1980-01-01" ∧
      p.gender = resolveDim [(1, "Male")] scenarioPatientA.gender ∧
      p.race = resolveDim [(1, "White")] scenarioPatientA.race ∧
      p.marital = resolveDim [(1, "Married")] scenarioPatientA.marital ∧
      p.language = resolveDim [(1, "English")] scenarioPatientA.language ∧
      (∀ dim : List (Nat × String), resolveDim dim none = none) ∧
      (∀ (dim : List (Nat × String)) (s : String),
        (∀ q ∈ dim, q.2 ≠ s) → resolveDim dim (some s) = none) ∧
      (∀ (dim : List (Nat × String)) (i : Nat) (s : String),
        (dim.map Prod.snd).Nodup → (i, s) ∈ dim →
        resolveDim dim (some s) = some i) ∧
      (scenarioPatientA.poverty = none → p.poverty = none) ∧
      (scenarioPatientA.poverty = some "" → p.poverty = none) ∧
      (∀ s q, scenarioPatientA.poverty = some s → parseDecText s = some q →
        p.poverty = some q) ∧
      loadPatients [(1, "Male")] [(1, "White")] [(1, "Married")]
          [(1, "English")] [scenarioPatientA] [] =
        .ok (if ([] : List PatientRow).any (fun q => q.pid = "P1") then []
          else [] ++ [p]) :=
  entity_patient_load [(1, "Male")] [(1, "White")] [(1, "Married")]
    [(1, "English")] [] scenarioPatientA "P1" "1980-01-01" rfl rfl
    (Or.inr (Or.inr ⟨"12.5", mkRat 25 2, rfl, by decide⟩))

/-- C6: a staged admission row whose admission identifier text is
non-numeric fails the whole statement with a type-coercion error (the row is
not silently dropped), and a well-formed staged admission row referencing a
patient identifier absent from the patients table fails with a
referential-integrity error rather than being skipped. -/
theorem entity_admission_errors (pats : List PatientRow)
    (t : List AdmissionRow) (r : StageAdmission)
    (rest : List StageAdmission) :
    (∀ s, r.aid = some s → parseIntText s = none →
      admStep pats t r = .error .typeCoercion ∧
      loadAdmissions pats (r :: rest) t = .error .typeCoercion) ∧
    (∀ p s a st, r.pid = some p → r.aid = some s → parseIntText s = some a →
      r.istart = some st → (∀ q ∈ pats, q.pid ≠ p) →
      (∀ x ∈ t, ¬(x.pid = p ∧ x.aid = a)) →
      admStep pats t r = .error .referentialIntegrity ∧
      loadAdmissions pats (r :: rest) t = .error .referentialIntegrity) := by
  constructor
  · intro s hs hparse
    have hstep : admStep pats t r = .error .typeCoercion := by
      simp [admStep, hs, hparse]
    refine ⟨hstep, ?_⟩
    rw [loadAdmissions, List.foldlM_cons, hstep]
    simp [Bind.bind, Except.bind]
  · intro p s a st hp hs hparse hst hnopat hnoconf
    have hcf : t.any (fun x => x.pid = p ∧ x.aid = a) = false :=
      List.any_eq_false.mpr (fun x hx => by simpa using hnoconf x hx)
    have hnp : pats.any (fun q => q.pid = p) = false :=
      List.any_eq_false.mpr (fun q hq => by simpa using hnopat q hq)
    have hstep : admStep pats t r = .error .referentialIntegrity := by
      simp only [admStep, hp, hs, hparse, hst]
      rw [hcf, hnp]
      simp
    refine ⟨hstep, ?_⟩
    rw [loadAdmissions, List.foldlM_cons, hstep]
    simp [Bind.bind, Except.bind]

/-- Closed witness for `entity_admission_errors`: a non-numeric admission
identifier, and an admission for an unknown patient. -/
theorem entity_admission_errors_witness :
    (admStep [⟨"P1", none, "1980-01-01", none, none, none, none⟩] []
        ⟨some "P1", some "x1", some "2000-01-01", none⟩ =
      .error .typeCoercion ∧
     loadAdmissions [⟨"P1", none, "1980-01-01", none, none, none, none⟩]
        [⟨some "P1", some "x1", some "2000-01-01", none⟩] [] =
      .error .typeCoercion) ∧
    (admStep [⟨"P1", none, "1980-01-01", none, none, none, none⟩] []
        ⟨some "P9", some "1", some "2000-01-01", none⟩ =
      .error .referentialIntegrity ∧
     loadAdmissions [⟨"P1", none, "1980-01-01", none, none, none, none⟩]
        [⟨some "P9", some "1", some "2000-01-01", none⟩] [] =
      .error .referentialIntegrity) :=
  ⟨(entity_admission_errors
      [⟨"P1", none, "1980-01-01", none, none, none, none⟩] []
      ⟨some "P1", some "x1", some "2000-01-01", none⟩ []).1 "x1" rfl
      (by decide),
   (entity_admission_errors
      [⟨"P1", none, "1980-01-01", none, none, none, none⟩] []
      ⟨some "P9", some "1", some "2000-01-01", none⟩ []).2 "P9" "1" 1
      "2000-01-01" rfl rfl (by decide) rfl (by decide) (by decide)⟩

/-! ### Lab rows with empty or null units -/

/-- Whether a staged lab row's `LabUnits` value is null or empty. -/
def emptyUnits (r : StageLab) : Bool :=
  match r.units with
  | none => true
  | some u => u = ""

theorem filterMap_filter_of_none {α β : Type} (f : α → Option β)
    (p : α → Bool) (l : List α) (h : ∀ r ∈ l, p r = false → f r = none) :
    (l.filter p).filterMap f = l.filterMap f := by
  induction l with
  | nil => rfl
  | cons x xs ih =>
      have ih' := ih (fun r hr => h r (List.mem_cons_of_mem _ hr))
      cases hp : p x with
      | true =>
          rw [List.filter_cons_of_pos hp, List.filterMap_cons,
            List.filterMap_cons]
          cases f x with
          | none => exact ih'
          | some b => rw [ih']
      | false =>
          rw [List.filter_cons_of_neg (by rw [hp]; exact Bool.false_ne_true),
            List.filterMap_cons]
          rw [h x (by simp) hp]
          exact ih'

/-- A lab row with null or empty units never joins to `lab_units` (the unit
dimension holds no empty descriptor), so it contributes nothing to
`lab_tests`. -/
theorem labTestJoin_none_of_emptyUnits {units : List (Nat × String)}
    {r : StageLab} (hu : ¬ "" ∈ units.map Prod.snd)
    (h : emptyUnits r = true) : labTestJoin units r = none := by
  cases hn : r.labname with
  | none => simp [labTestJoin, hn]
  | some n =>
      cases hun : r.units with
      | none => simp [labTestJoin, hn, hun]
      | some u =>
          have hue : u = "" := by
            unfold emptyUnits at h
            rw [hun] at h
            simpa using h
          subst hue
          have hf : units.find? (fun p => p.2 = "") = none :=
            List.find?_eq_none.mpr (fun q hq => by
              simp only [decide_eq_true_eq]
              intro hq2
              exact hu (List.mem_map.mpr ⟨q, hq, hq2⟩))
          simp [labTestJoin, hn, hun, hf]

theorem foldl_labTestInsert_mem (l : List (String × Nat)) :
    ∀ (acc : List LabTest) (lt : LabTest), lt ∈ l.foldl labTestInsert acc →
      lt ∈ acc ∨ ∃ nu ∈ l, lt.lab_name = nu.1 ∧ lt.unit_id = nu.2 := by
  induction l with
  | nil => intro acc lt h; exact Or.inl h
  | cons x xs ih =>
      intro acc lt h
      rw [List.foldl_cons] at h
      rcases ih (labTestInsert acc x) lt h with hm | hm
      · unfold labTestInsert at hm
        by_cases hc : acc.any (fun t => t.lab_name = x.1)
        · rw [if_pos hc] at hm
          exact Or.inl hm
        · rw [if_neg hc, List.mem_append] at hm
          rcases hm with hm | hm
          · exact Or.inl hm
          · have : lt = ⟨acc.length + 1, x.1, x.2⟩ := by simpa using hm
            subst this
            exact Or.inr ⟨x, by simp, rfl, rfl⟩
      · rcases hm with ⟨nu, hnu, he⟩
        exact Or.inr ⟨nu, List.mem_cons_of_mem _ hnu, he⟩

/-- Every joined (name, unit id) pair points into the unit dimension at a
nonempty descriptor. -/
theorem mem_filterMap_labTestJoin {units : List (Nat × String)}
    {labs : List StageLab} {nu : String × Nat}
    (hu : ¬ "" ∈ units.map Prod.snd)
    (h : nu ∈ labs.filterMap (labTestJoin units)) :
    ∃ q ∈ units, q.1 = nu.2 ∧ q.2 ≠ "" := by
  rcases List.mem_filterMap.mp h with ⟨r, _hr, hj⟩
  cases hn : r.labname with
  | none => cases hun : r.units <;> simp [labTestJoin, hn, hun] at hj
  | some n =>
      cases hun : r.units with
      | none => simp [labTestJoin, hn, hun] at hj
      | some u =>
          by_cases hne : n = ""
          · simp [labTestJoin, hn, hun, hne] at hj
          · cases hf : units.find? (fun p => p.2 = u) with
            | none => simp [labTestJoin, hn, hun, hne, hf] at hj
            | some q =>
                simp only [labTestJoin, hn, hun, if_neg hne, hf,
                  Option.map_some'] at hj
                have hj' : (n, q.1) = nu := by simpa using hj
                have hqm : q ∈ units := List.mem_of_find?_eq_some hf
                refine ⟨q, hqm, ?_, ?_⟩
                · rw [← hj']
                · intro he
                  exact hu (List.mem_map.mpr ⟨q, hqm, he⟩)

/-- A row inserted by the lab fact builder references a lab test of the
dimension. -/
theorem labFactStep_mem {tests : List LabTest} {adms : List AdmissionRow}
    {t t1 : List LabResultRow} {r : StageLab}
    (h : labFactStep tests adms t r = .ok t1) :
    ∀ x ∈ t1, x ∈ t ∨ ∃ lt ∈ tests, lt.lab_test_id = x.lab_test_id := by
  cases hj : labFactJoin tests r with
  | none =>
      have : t = t1 := by simpa [labFactStep, hj] using h
      subst this
      exact fun x hx => Or.inl hx
  | some ltid =>
      have hlt : ∃ lt ∈ tests, lt.lab_test_id = ltid := by
        cases hn : r.labname with
        | none => simp [labFactJoin, hn] at hj
        | some n =>
            cases hf : tests.find? (fun q => q.lab_name = n) with
            | none => simp [labFactJoin, hn, hf] at hj
            | some lt0 =>
                have : lt0.lab_test_id = ltid := by
                  simpa [labFactJoin, hn, hf] using hj
                exact ⟨lt0, List.mem_of_find?_eq_some hf, this⟩
      simp only [labFactStep, hj] at h
      cases hv : coerceRealOpt r.labvalue with
      | error e => simp only [hv] at h; exact absurd h (by simp)
      | ok v =>
          simp only [hv] at h
          cases hp : r.pid with
          | none =>
              simp only [hp] at h
              exact absurd h (by simp)
          | some p =>
              cases ha : r.aid with
              | none =>
                  simp only [hp, ha] at h
                  exact absurd h (by simp)
              | some s =>
                  cases hd : r.datetime with
                  | none =>
                      simp only [hp, ha, hd] at h
                      exact absurd h (by simp)
                  | some dt =>
                      simp only [hp, ha, hd] at h
                      cases hpi : parseIntText s with
                      | none =>
                          simp only [hpi] at h
                          exact absurd h (by simp)
                      | some a =>
                          simp only [hpi] at h
                          by_cases hcf : t.any (fun x => x.pid = p ∧
                              x.aid = a ∧ x.lab_test_id = ltid ∧
                              x.datetime = dt)
                          · rw [if_pos hcf] at h
                            have : t = t1 := by simpa using h
                            subst this
                            exact fun x hx => Or.inl hx
                          · rw [if_neg hcf] at h
                            by_cases hfk : adms.any (fun ad =>
                                ad.pid = p ∧ ad.aid = a)
                            · rw [if_pos hfk] at h
                              have ht1 : t ++ [⟨p, a, ltid, v, dt⟩] = t1 := by
                                simpa using h
                              subst ht1
                              intro x hx
                              rcases List.mem_append.mp hx with hx | hx
                              · exact Or.inl hx
                              · have : x = ⟨p, a, ltid, v, dt⟩ := by
                                  simpa using hx
                                subst this
                                exact Or.inr hlt
                            · rw [if_neg hfk] at h
                              exact absurd h (by simp)

theorem loadLabFacts_mem {tests : List LabTest} {adms : List AdmissionRow}
    {rows : List StageLab} :
    ∀ {t t' : List LabResultRow}, loadLabFacts tests adms rows t = .ok t' →
      ∀ x ∈ t', x ∈ t ∨ ∃ lt ∈ tests, lt.lab_test_id = x.lab_test_id := by
  induction rows with
  | nil =>
      intro t t' h x hx
      have : t = t' := by
        simpa [loadLabFacts, List.foldlM, pure, Except.pure] using h
      subst this
      exact Or.inl hx
  | cons r rest ih =>
      intro t t' h x hx
      rw [loadLabFacts, List.foldlM_cons] at h
      rcases except_bind_ok h with ⟨t1, h1, h2⟩
      rcases ih h2 x hx with hm | hm
      · exact labFactStep_mem h1 x hm
      · exact Or.inr hm

/-- With an empty lab-test dimension, the lab fact builder inserts nothing
and raises nothing. -/
theorem loadLabFacts_no_tests (adms : List AdmissionRow)
    (rows : List StageLab) (t : List LabResultRow) :
    loadLabFacts [] adms rows t = .ok t := by
  induction rows generalizing t with
  | nil => rfl
  | cons r rest ih =>
      have hj : labFactJoin [] r = none := by
        unfold labFactJoin
        cases r.labname <;> simp
      rw [loadLabFacts, List.foldlM_cons]
      have hstep : labFactStep [] adms t r = .ok t := by
        simp [labFactStep, hj]
      rw [hstep]
      simp only [Bind.bind, Except.bind]
      exact ih t

/-- C4: staged lab rows with a null or empty `LabUnits` value are excluded
without error: dropping them does not change the built `lab_tests`
dimension, every lab-test row references a nonempty unit descriptor, every
lab fact row references a lab test of the dimension (so no fact exists for a
name+empty-unit combination), and if every staged lab row has empty units
the fact builder inserts nothing and raises no error. -/
theorem lab_empty_units_excluded (labs : List StageLab)
    (adms : List AdmissionRow) (t0 t : List LabResultRow)
    (hok : loadLabFacts
        (buildLabTests [] (buildDim [] (labs.map (fun r => r.units))) labs)
        adms labs t0 = .ok t) :
    (buildLabTests [] (buildDim [] (labs.map (fun r => r.units)))
        (labs.filter (fun r => !emptyUnits r)) =
      buildLabTests [] (buildDim [] (labs.map (fun r => r.units))) labs) ∧
    (∀ lt ∈ buildLabTests [] (buildDim [] (labs.map (fun r => r.units))) labs,
      ∃ q ∈ buildDim [] (labs.map (fun r => r.units)),
        q.1 = lt.unit_id ∧ q.2 ≠ "") ∧
    (∀ x ∈ t, x ∈ t0 ∨
      ∃ lt ∈ buildLabTests [] (buildDim [] (labs.map (fun r => r.units))) labs,
        lt.lab_test_id = x.lab_test_id) ∧
    ((∀ r ∈ labs, emptyUnits r = true) →
      loadLabFacts
          (buildLabTests [] (buildDim [] (labs.map (fun r => r.units))) labs)
          adms labs t0 = .ok t0) := by
  have hu : ¬ "" ∈ (buildDim [] (labs.map (fun r => r.units))).map Prod.snd :=
    buildDim_snd_ne_empty _
  refine ⟨?_, ?_, ?_, ?_⟩
  · unfold buildLabTests
    rw [filterMap_filter_of_none _ _ labs]
    intro r _hr hpr
    have he : emptyUnits r = true := by
      cases hx : emptyUnits r
      · rw [hx] at hpr; simp at hpr
      · rfl
    exact labTestJoin_none_of_emptyUnits hu he
  · intro lt hlt
    rcases foldl_labTestInsert_mem _ [] lt hlt with hm | hm
    · simp at hm
    · rcases hm with ⟨nu, hnu, hname, hunit⟩
      rcases mem_filterMap_labTestJoin hu hnu with ⟨q, hq, hq1, hq2⟩
      exact ⟨q, hq, by rw [hq1, hunit], hq2⟩
  · exact loadLabFacts_mem hok
  · intro hall
    have htests : buildLabTests []
        (buildDim [] (labs.map (fun r => r.units))) labs = [] := by
      unfold buildLabTests
      have : labs.filterMap
          (labTestJoin (buildDim [] (labs.map (fun r => r.units)))) = [] := by
        rw [List.filterMap_eq_nil_iff]
        intro r hr
        exact labTestJoin_none_of_emptyUnits hu (hall r hr)
      rw [this]
      rfl
    rw [htests]
    exact loadLabFacts_no_tests adms labs t0

/-- Shared concrete input: one lab row with empty units, one with a real
unit, for the same admission. -/
def wLabRows : List StageLab :=
  [⟨some "P1", some "1", some "HGB", some "1.5", some "", some "2000-01-01"⟩,
   ⟨some "P1", some "1", some "WBC", some "7", some "K_uL", some "2000-01-01"⟩]

def wLabAdms : List AdmissionRow := [⟨"P1", 1, "2000-01-01", none⟩]

set_option maxHeartbeats 1000000 in
/-- Closed witness for `lab_empty_units_excluded` at the concrete lab rows. -/
theorem lab_empty_units_excluded_witness :
    (buildLabTests [] (buildDim [] (wLabRows.map (fun r => r.units)))
        (wLabRows.filter (fun r => !emptyUnits r)) =
      buildLabTests [] (buildDim [] (wLabRows.map (fun r => r.units)))
        wLabRows) ∧
    (∀ lt ∈ buildLabTests [] (buildDim [] (wLabRows.map (fun r => r.units)))
        wLabRows,
      ∃ q ∈ buildDim [] (wLabRows.map (fun r => r.units)),
        q.1 = lt.unit_id ∧ q.2 ≠ "") ∧
    (∀ x ∈ (loadLabFacts
        (buildLabTests [] (buildDim [] (wLabRows.map (fun r => r.units)))
          wLabRows) wLabAdms wLabRows []).toOption.getD [],
      x ∈ ([] : List LabResultRow) ∨
      ∃ lt ∈ buildLabTests [] (buildDim [] (wLabRows.map (fun r => r.units)))
          wLabRows,
        lt.lab_test_id = x.lab_test_id) ∧
    ((∀ r ∈ wLabRows, emptyUnits r = true) →
      loadLabFacts
          (buildLabTests [] (buildDim [] (wLabRows.map (fun r => r.units)))
            wLabRows) wLabAdms wLabRows [] = .ok []) :=
  lab_empty_units_excluded wLabRows wLabAdms []
    ((loadLabFacts
        (buildLabTests [] (buildDim [] (wLabRows.map (fun r => r.units)))
          wLabRows) wLabAdms wLabRows []).toOption.getD [])
    (by decide)

end PopulateDb
